import Mathlib

/-!
Verification of the anki-mcp-server core (src/index.ts and the extended
variant with tagging and mock mode) against its natural-language
specification.

The embedding is shallow: the TypeScript classes `AnkiConnectClient` and
`AnkiMcpServer` become pure Lean functions.  Network I/O is replaced by an
oracle `ℕ → HttpOutcome T` giving, for each attempt number, either the
HTTP response body `{ result, error }` of the POST to AnkiConnect or the
axios failure code of that attempt.  Every `await this.delay(ms)` in the
source is recorded in an explicit trace (a `List ℕ` of the requested
millisecond amounts, in order), and the number of transport requests
performed is counted, so that timing and call-count claims become
statements about these traces.
-/

/-- Outcome of one attempted HTTP POST to AnkiConnect, as axios reports it
to the `catch` block of `AnkiConnectClient.request`: either the parsed
response body `{ result, error }` (an `AnkiConnectResponse<T>`, whose
`error` field is `string | null`, modelled `Option String`), or a network
failure carrying the axios error `code` string. -/
inductive HttpOutcome (T : Type) where
  | ok (result : T) (error : Option String)
  | netFail (code : String)

/-- The errors `AnkiConnectClient.request` can throw, one constructor per
`throw new Error(...)` site in the source: the connection-refused message,
the `AnkiConnect error: ...` message for a response whose `error` field is
truthy, and the `Network error: <code>` message for other axios failures
(including a connection reset whose retries are exhausted). -/
inductive ReqError where
  | connectionRefused
  | remoteError (msg : String)
  | networkError (code : String)
deriving DecidableEq

/-- What one call of `AnkiConnectClient.request` did: its return value or
thrown error, the arguments of every `await this.delay(ms)` it performed
(in order), and how many HTTP POSTs it issued. -/
structure ReqTrace (T : Type) where
  result : Except ReqError T
  delays : List ℕ
  calls : ℕ

/-- One step of `AnkiConnectClient.request` (src/index.ts lines 78-128):
`attempt` indexes the oracle (0 for the initial POST), `retries` is the
`retries` parameter of the source.  On a response whose `error` field is
truthy (JavaScript: `if (response.data.error)`, so a non-null non-empty
string) it throws `AnkiConnect error: <error>`; on a falsy error field it
delays 50ms and returns the result; on axios code ECONNREFUSED it throws
at once; on ECONNRESET with `retries > 0` it delays
`500 * Math.pow(2, 3 - retries)` (500, 1000, 2000ms along the default
`retries = 3` chain, where the Nat subtraction coincides with the source)
and recurses with `retries - 1`; any other axios failure throws
`Network error: <code>`. -/
def requestGo (oracle : ℕ → HttpOutcome T) : ℕ → ℕ → ReqTrace T
  | attempt, retries =>
    match oracle attempt with
    | .ok r e =>
      match e with
      | some s =>
        if s = "" then ⟨.ok r, [50], 1⟩
        else ⟨.error (.remoteError ("AnkiConnect error: " ++ s)), [], 1⟩
      | none => ⟨.ok r, [50], 1⟩
    | .netFail code =>
      if code = "ECONNREFUSED" then ⟨.error .connectionRefused, [], 1⟩
      else if code = "ECONNRESET" then
        match retries with
        | 0 => ⟨.error (.networkError code), [], 1⟩
        | r + 1 =>
          let rest := requestGo oracle (attempt + 1) r
          ⟨rest.result, 500 * 2 ^ (3 - (r + 1)) :: rest.delays, rest.calls + 1⟩
      else ⟨.error (.networkError code), [], 1⟩

/-- `AnkiConnectClient.request` as called throughout the source: with the
default `retries = 3`, starting at attempt 0. -/
def request (oracle : ℕ → HttpOutcome T) : ReqTrace T :=
  requestGo oracle 0 3

/-- C1: on `ConnectionReset` failures, `request` retries up to 3 times with
backoff delays 500ms, 1000ms, 2000ms and, when all retries are exhausted,
surfaces the connection-reset network error to the caller (4 POSTs in
total); and when the first two attempts reset and the third succeeds, it
succeeds after having waited 500ms then 1000ms between the attempts (the
trailing 50ms is the post-success throttle delay). -/
theorem request_connectionReset_backoff :
    (∀ (T : Type) (oracle : ℕ → HttpOutcome T),
      (∀ a, oracle a = .netFail "ECONNRESET") →
      request oracle =
        ⟨.error (.networkError "ECONNRESET"), [500, 1000, 2000], 4⟩) ∧
    (∀ (T : Type) (oracle : ℕ → HttpOutcome T) (r : T),
      oracle 0 = .netFail "ECONNRESET" →
      oracle 1 = .netFail "ECONNRESET" →
      oracle 2 = .ok r none →
      request oracle = ⟨.ok r, [500, 1000, 50], 3⟩) := by
  constructor
  · intro T oracle h
    simp [request, requestGo, h 0, h 1, h 2, h 3]
  · intro T oracle r h0 h1 h2
    simp [request, requestGo, h0, h1, h2]

/-- Witness for C1 at a concrete oracle: all four attempts reset, and the
mixed reset-reset-success oracle. -/
theorem request_connectionReset_backoff_witness :
    request (T := ℕ) (fun _ => .netFail "ECONNRESET") =
      ⟨.error (.networkError "ECONNRESET"), [500, 1000, 2000], 4⟩ ∧
    request (fun a => if a < 2 then .netFail "ECONNRESET" else .ok 7 none) =
      ⟨.ok 7, [500, 1000, 50], 3⟩ := by
  refine ⟨request_connectionReset_backoff.1 ℕ _ (fun a => rfl),
    request_connectionReset_backoff.2 ℕ _ 7 rfl rfl rfl⟩

/-- C2 counterexample: a well-formed response whose `error` field is
non-null but empty (`error = ""`) is NOT rejected: the source tests
`if (response.data.error)`, a JavaScript truthiness check, and the empty
string is falsy, so `request` returns the result successfully (with the
50ms post-success delay and a single POST) instead of failing with the
remote error. -/
theorem request_remoteError_empty_counterexample :
    request (T := ℕ) (fun _ => .ok 42 (some "")) = ⟨.ok 42, [50], 1⟩ := by
  simp [request, requestGo]

/-- C2 (amended): when the response carries a non-null, non-empty `error`
field, `request` fails immediately with the remote error carrying that
message, performing no retry: no delay and exactly one POST. -/
theorem request_remoteError_no_retry (T : Type) (oracle : ℕ → HttpOutcome T)
    (r : T) (s : String) (hs : s ≠ "") (h : oracle 0 = .ok r (some s)) :
    request oracle =
      ⟨.error (.remoteError ("AnkiConnect error: " ++ s)), [], 1⟩ := by
  simp [request, requestGo, h, hs]

/-- Witness for the amended C2 at a concrete oracle. -/
theorem request_remoteError_no_retry_witness :
    request (T := ℕ) (fun _ => .ok 42 (some "boom")) =
      ⟨.error (.remoteError ("AnkiConnect error: " ++ "boom")), [], 1⟩ :=
  request_remoteError_no_retry ℕ _ 42 "boom" (by decide) rfl

/-- C3: on a `ConnectionRefused` failure, `request` fails immediately with
the connection-refused error and performs zero retries: no backoff delay
and exactly one POST. -/
theorem request_connectionRefused_immediate (T : Type)
    (oracle : ℕ → HttpOutcome T) (h : oracle 0 = .netFail "ECONNREFUSED") :
    request oracle = ⟨.error .connectionRefused, [], 1⟩ := by
  simp [request, requestGo, h]

/-- Witness for C3 at a concrete oracle. -/
theorem request_connectionRefused_immediate_witness :
    request (T := ℕ) (fun _ => .netFail "ECONNREFUSED") =
      ⟨.error .connectionRefused, [], 1⟩ :=
  request_connectionRefused_immediate ℕ _ rfl

/-!
The Batch Hydrator: `AnkiConnectClient.getCardsInfo` (src/index.ts lines
142-229).  The two bulk requests are abstracted by response oracles
`cardsResp : List ℤ → List RawCardInfo` (the `cardsInfo` action) and
`notesResp : List ℤ → List RawNoteInfo` (the `notesInfo` action): the
oracle value at the requested identifier list is the parsed `result` of
the successful bulk call.  The returned pair is the hydrated record list
together with the trace of the `await this.delay(ms)` calls made by the
batching loop (the 100ms intra-batch and 500ms inter-batch waits), in
order.
-/

/-- One value of a note field: `{ value, order }`. -/
structure FieldVal where
  value : String
  order : ℕ
deriving DecidableEq

/-- The card-level shape consumed from the bulk `cardsInfo` response:
exactly the fields the source reads (`cardId`, `note`, `deckName`,
`modelName`, `interval`, `factor`, `reps`, `lapses`). -/
structure RawCardInfo where
  cardId : ℤ
  note : ℤ
  deckName : String
  modelName : String
  interval : ℤ
  factor : ℤ
  reps : ℤ
  lapses : ℤ
deriving DecidableEq

/-- The note-level shape consumed from the bulk `notesInfo` response:
exactly the fields the source reads (`noteId`, `modelName`, `tags`,
`fields`, the latter as an association list of field name to value). -/
structure RawNoteInfo where
  noteId : ℤ
  modelName : String
  tags : List String
  fields : List (String × FieldVal)
deriving DecidableEq

/-- The `statistics` member of a hydrated `CardInfo` record; `ease` is a
rational because the source computes `cardInfo.factor / 1000` with
JavaScript number division (exact for these operands). -/
structure Statistics where
  ease : ℚ
  interval : ℤ
  reviews : ℤ
  lapses : ℤ
deriving DecidableEq

/-- The hydrated record the Batch Hydrator emits (interface `CardInfo` of
the source). -/
structure CardInfo where
  id : ℤ
  noteId : ℤ
  deck : String
  modelName : String
  fields : List (String × FieldVal)
  tags : List String
  front : String
  back : String
  statistics : Statistics
deriving DecidableEq

/-- JavaScript `[...new Set(list)]`: deduplicate keeping the first
occurrence of each element, preserving insertion order.  `seen` holds the
elements already emitted. -/
def jsDedupAux [DecidableEq α] (seen : List α) : List α → List α
  | [] => []
  | a :: l => if a ∈ seen then jsDedupAux seen l else a :: jsDedupAux (a :: seen) l

/-- JavaScript `[...new Set(list)]` from the empty seen-set. -/
def jsDedup [DecidableEq α] (l : List α) : List α :=
  jsDedupAux [] l

/-- The `notesInfoMap` built by `forEach`/`Map.set`: the map value for a
key is the LAST note in the response array carrying that `noteId`, since
later `set` calls overwrite earlier ones. -/
def lookupNote (notes : List RawNoteInfo) (n : ℤ) : Option RawNoteInfo :=
  notes.reverse.find? (fun ni => ni.noteId = n)

/-- The body of the per-card loop once the delay has been issued: look the
note up in `notesInfoMap`; if absent, skip the card (`continue`), else emit
the combined `CardInfo` with the placeholder front and back strings and
`ease = factor / 1000`. -/
def combineCard (lookup : ℤ → Option RawNoteInfo) (c : RawCardInfo) :
    Option CardInfo :=
  match lookup c.note with
  | none => none
  | some ni =>
    some
      { id := c.cardId
        noteId := c.note
        deck := c.deckName
        modelName := ni.modelName
        fields := ni.fields
        tags := ni.tags
        front := "[Basic card information only]"
        back := "[Basic card information only]"
        statistics :=
          { ease := (c.factor : ℚ) / 1000
            interval := c.interval
            reviews := c.reps
            lapses := c.lapses } }

/-- The `BATCH_SIZE` constant of the source. -/
def BATCH_SIZE : ℕ := 5

/-- The inner loop `for (const cardInfo of batch)`: `i` is the start index
of the batch in the outer loop and `k` the position of the current record
inside the batch (`batch.indexOf(cardInfo)`, the records being distinct
object references).  Before each record with `i > 0 || k > 0` a 100ms
delay is issued; a record whose note is missing is skipped after that
delay. -/
def hydrateBatch (lookup : ℤ → Option RawNoteInfo) (i : ℕ) :
    List RawCardInfo → ℕ → List CardInfo × List ℕ
  | [], _ => ([], [])
  | c :: rest, k =>
    let pre : List ℕ := if 0 < i ∨ 0 < k then [100] else []
    let next := hydrateBatch lookup i rest (k + 1)
    match combineCard lookup c with
    | none => (next.1, pre ++ next.2)
    | some card => (card :: next.1, pre ++ next.2)

/-- `cardsInfo.slice(i, i + BATCH_SIZE)` for `i = 0, 5, 10, ...`: the list
cut into groups of 5, the last group possibly shorter. -/
def chunkList : List RawCardInfo → List (List RawCardInfo)
  | [] => []
  | a :: b :: c :: d :: e :: rest => [a, b, c, d, e] :: chunkList rest
  | l => [l]

/-- The outer loop `for (let i = 0; i < cardsInfo.length; i += BATCH_SIZE)`:
process each group, then issue the 500ms inter-batch delay when
`i + BATCH_SIZE < cardsInfo.length` (`total` is `cardsInfo.length`). -/
def hydrateGroups (lookup : ℤ → Option RawNoteInfo) (total : ℕ) :
    ℕ → List (List RawCardInfo) → List CardInfo × List ℕ
  | _, [] => ([], [])
  | i, b :: rest =>
    let cur := hydrateBatch lookup i b 0
    let gap : List ℕ := if i + BATCH_SIZE < total then [500] else []
    let next := hydrateGroups lookup total (i + BATCH_SIZE) rest
    (cur.1 ++ next.1, cur.2 ++ gap ++ next.2)

/-- `AnkiConnectClient.getCardsInfo`: empty input short-circuits with no
requests; otherwise one bulk `cardsInfo` request, the note identifiers
deduplicated JavaScript-Set style, one bulk `notesInfo` request, and the
paced merge loop.  Returns the hydrated records and the delay trace of the
batching loop. -/
def getCardsInfo (cardsResp : List ℤ → List RawCardInfo)
    (notesResp : List ℤ → List RawNoteInfo) (cardIds : List ℤ) :
    List CardInfo × List ℕ :=
  if cardIds.isEmpty then ([], [])
  else
    let cardsInfo := cardsResp cardIds
    let uniqueNoteIds := jsDedup (cardsInfo.map (fun c => c.note))
    let notesInfoArray := notesResp uniqueNoteIds
    hydrateGroups (lookupNote notesInfoArray) cardsInfo.length 0
      (chunkList cardsInfo)

/-- The mock `cardsInfo` response of `getMockResponse`: for each requested
card identifier, a record with note `cardId + 1000000`, deck "Mock Deck",
model "Mock Model", interval 10, factor 2500, 5 reps and 2 lapses. -/
def mockCardsResp (cardIds : List ℤ) : List RawCardInfo :=
  cardIds.map fun cardId =>
    { cardId := cardId
      note := cardId + 1000000
      deckName := "Mock Deck"
      modelName := "Mock Model"
      interval := 10
      factor := 2500
      reps := 5
      lapses := 2 }

/-- The mock `notesInfo` response of `getMockResponse`: for each requested
note identifier, a record with that id, model "Mock Model", the two mock
tags and the Front and Back mock fields. -/
def mockNotesResp (noteIds : List ℤ) : List RawNoteInfo :=
  noteIds.map fun noteId =>
    { noteId := noteId
      modelName := "Mock Model"
      tags := ["leech", "mock_tag"]
      fields :=
        [("Front", ⟨"Mock front content", 0⟩), ("Back", ⟨"Mock back content", 1⟩)] }

/-- The note lookup function `getCardsInfo` builds for a given pair of
response oracles and input list: the `notesInfoMap` over the `notesInfo`
response for the deduplicated note identifiers of the `cardsInfo`
response. -/
def noteLookupOf (cardsResp : List ℤ → List RawCardInfo)
    (notesResp : List ℤ → List RawNoteInfo) (cardIds : List ℤ) :
    ℤ → Option RawNoteInfo :=
  lookupNote (notesResp (jsDedup ((cardsResp cardIds).map (fun c => c.note))))

theorem hydrateBatch_fst (lookup : ℤ → Option RawNoteInfo) (i : ℕ) :
    ∀ (b : List RawCardInfo) (k : ℕ),
      (hydrateBatch lookup i b k).1 = b.filterMap (combineCard lookup)
  | [], _ => rfl
  | c :: rest, k => by
    simp only [hydrateBatch, List.filterMap_cons]
    cases h : combineCard lookup c <;>
      simp [h, hydrateBatch_fst lookup i rest (k + 1)]

theorem hydrateGroups_fst (lookup : ℤ → Option RawNoteInfo) (total : ℕ) :
    ∀ (bs : List (List RawCardInfo)) (i : ℕ),
      (hydrateGroups lookup total i bs).1 =
        bs.flatten.filterMap (combineCard lookup)
  | [], _ => rfl
  | b :: rest, i => by
    simp [hydrateGroups, hydrateBatch_fst, hydrateGroups_fst lookup total rest
      (i + BATCH_SIZE)]

theorem chunkList_flatten : ∀ l : List RawCardInfo, (chunkList l).flatten = l
  | [] => rfl
  | [_] => rfl
  | [_, _] => rfl
  | [_, _, _] => rfl
  | [_, _, _, _] => rfl
  | a :: b :: c :: d :: e :: rest => by
    simp [chunkList, chunkList_flatten rest]

theorem getCardsInfo_fst (cardsResp : List ℤ → List RawCardInfo)
    (notesResp : List ℤ → List RawNoteInfo) (cardIds : List ℤ)
    (h : cardIds ≠ []) :
    (getCardsInfo cardsResp notesResp cardIds).1 =
      (cardsResp cardIds).filterMap
        (combineCard (noteLookupOf cardsResp notesResp cardIds)) := by
  rw [getCardsInfo, if_neg (by simpa using h)]
  rw [hydrateGroups_fst, chunkList_flatten]
  rfl

/-- C10: for every non-empty input, the record list returned by
`getCardsInfo` is exactly the bulk `cardsInfo` response projected record
by record through `combineCard` in order, the records whose note is
missing from the note lookup dropped: an order-preserving subsequence with
no reordering, duplication or insertion. -/
theorem getCardsInfo_preserves_order (cardsResp : List ℤ → List RawCardInfo)
    (notesResp : List ℤ → List RawNoteInfo) (cardIds : List ℤ)
    (h : cardIds ≠ []) :
    (getCardsInfo cardsResp notesResp cardIds).1 =
      (cardsResp cardIds).filterMap
        (combineCard (noteLookupOf cardsResp notesResp cardIds)) :=
  getCardsInfo_fst cardsResp notesResp cardIds h

/-- A concrete instance of C10: two cards, the second note missing from the
note response, hydrated into the projection of the card response. -/
theorem getCardsInfo_preserves_order_witness :
    ([1, 2] : List ℤ) ≠ [] ∧
    (getCardsInfo (fun _ => [⟨1, 5, "d", "m", 0, 2500, 0, 0⟩,
        ⟨2, 6, "d", "m", 0, 2500, 0, 0⟩])
      (fun _ => [⟨5, "m", [], []⟩]) [1, 2]).1 =
      ([⟨1, 5, "d", "m", 0, 2500, 0, 0⟩, ⟨2, 6, "d", "m", 0, 2500, 0, 0⟩] :
          List RawCardInfo).filterMap
        (combineCard (noteLookupOf (fun _ => [⟨1, 5, "d", "m", 0, 2500, 0, 0⟩,
            ⟨2, 6, "d", "m", 0, 2500, 0, 0⟩])
          (fun _ => [⟨5, "m", [], []⟩]) [1, 2])) :=
  ⟨by decide, getCardsInfo_preserves_order _ _ [1, 2] (by decide)⟩

theorem filterMap_combine_map_id (lookup : ℤ → Option RawNoteInfo) :
    ∀ l : List RawCardInfo,
      (l.filterMap (combineCard lookup)).map (fun rec => rec.id) =
        (l.filter (fun c => (lookup c.note).isSome)).map (fun c => c.cardId)
  | [] => rfl
  | c :: rest => by
    have ih := filterMap_combine_map_id lookup rest
    simp only [List.filterMap_cons, List.filter_cons]
    cases h : lookup c.note <;>
      simp [combineCard, h, ih]

/-- C4: for every non-empty input, the identifiers of the hydrated records
are exactly the identifiers of the bulk-response cards whose note IS in
the note lookup, in order: each card whose note is absent is skipped while
hydration of the remaining cards continues, and the batch neither aborts
nor surfaces a failure for the skipped cards. -/
theorem getCardsInfo_skips_missing_notes
    (cardsResp : List ℤ → List RawCardInfo)
    (notesResp : List ℤ → List RawNoteInfo) (cardIds : List ℤ)
    (h : cardIds ≠ []) :
    (getCardsInfo cardsResp notesResp cardIds).1.map (fun rec => rec.id) =
      ((cardsResp cardIds).filter
          (fun c => ((noteLookupOf cardsResp notesResp cardIds) c.note).isSome)).map
        (fun c => c.cardId) := by
  rw [getCardsInfo_fst cardsResp notesResp cardIds h,
    filterMap_combine_map_id]

/-- A concrete instance of C4: of two cards, one note is missing; the
result keeps exactly the card whose note resolves. -/
theorem getCardsInfo_skips_missing_notes_witness :
    ([1, 2] : List ℤ) ≠ [] ∧
    (getCardsInfo (fun _ => [⟨1, 5, "d", "m", 0, 2500, 0, 0⟩,
        ⟨2, 6, "d", "m", 0, 2500, 0, 0⟩])
      (fun _ => [⟨5, "m", [], []⟩]) [1, 2]).1.map (fun rec => rec.id) =
      (([⟨1, 5, "d", "m", 0, 2500, 0, 0⟩, ⟨2, 6, "d", "m", 0, 2500, 0, 0⟩] :
          List RawCardInfo).filter
        (fun c => ((noteLookupOf (fun _ => [⟨1, 5, "d", "m", 0, 2500, 0, 0⟩,
            ⟨2, 6, "d", "m", 0, 2500, 0, 0⟩])
          (fun _ => [⟨5, "m", [], []⟩]) [1, 2]) c.note).isSome)).map
        (fun c => c.cardId) :=
  ⟨by decide, getCardsInfo_skips_missing_notes _ _ [1, 2] (by decide)⟩

/-- Per-record delay characterization (record positions 0-based across the
whole bulk response): the delays issued immediately before processing the
record at global position `p` are none for the very first record, a 500ms
inter-batch wait followed by a 100ms wait for the first record of every
later group (positions that are positive multiples of `BATCH_SIZE`), and a
single 100ms wait for every other record. -/
def delayBefore (p : ℕ) : List ℕ :=
  if p = 0 then [] else if p % BATCH_SIZE = 0 then [500, 100] else [100]

/-- The full expected delay trace for `n` records under `delayBefore`. -/
def expectedDelays (n : ℕ) : List ℕ :=
  ((List.range n).map delayBefore).flatten

/-- The delay trace contributed by records of groups after the first,
position `q` counted from the start of the current group onward: the first
such record gets only the 100ms wait (its 500ms inter-batch wait belongs
to the preceding group), later group boundaries get 500ms then 100ms, and
all other records 100ms. -/
def tailDelayBefore (q : ℕ) : List ℕ :=
  if q = 0 then [100] else if q % BATCH_SIZE = 0 then [500, 100] else [100]

/-- The tail delay trace for `m` remaining records. -/
def tailDelays (m : ℕ) : List ℕ :=
  ((List.range m).map tailDelayBefore).flatten

theorem hydrateBatch_snd_pos (lookup : ℤ → Option RawNoteInfo) (i : ℕ) :
    ∀ (b : List RawCardInfo) (k : ℕ), 0 < i ∨ 0 < k →
      (hydrateBatch lookup i b k).2 = List.replicate b.length 100
  | [], _, _ => rfl
  | c :: rest, k, hk => by
    have ih := hydrateBatch_snd_pos lookup i rest (k + 1) (Or.inr k.succ_pos)
    cases h : combineCard lookup c <;>
      simp [hydrateBatch, h, hk, ih, List.replicate_succ]

theorem hydrateBatch_snd_zero (lookup : ℤ → Option RawNoteInfo) :
    ∀ b : List RawCardInfo,
      (hydrateBatch lookup 0 b 0).2 = List.replicate (b.length - 1) 100
  | [] => rfl
  | c :: rest => by
    have ih := hydrateBatch_snd_pos lookup 0 rest 1 (Or.inr Nat.one_pos)
    cases h : combineCard lookup c <;>
      simp [hydrateBatch, h, ih]

theorem flatten_map_mod_eq_tailDelays (m : ℕ) (hm : 0 < m) :
    ((List.range m).map
        (fun q => if q % BATCH_SIZE = 0 then [500, 100] else [100])).flatten =
      500 :: tailDelays m := by
  obtain ⟨m', rfl⟩ := Nat.exists_eq_add_of_lt hm
  rw [Nat.zero_add, tailDelays, List.range_succ_eq_map]
  simp only [List.map_cons, List.map_map, List.flatten_cons]
  have hf : (fun q => if q % BATCH_SIZE = 0 then ([500, 100] : List ℕ)
        else [100]) ∘ Nat.succ =
      tailDelayBefore ∘ Nat.succ := by
    funext q
    simp [tailDelayBefore, Nat.succ_ne_zero]
  rw [hf]
  simp [tailDelayBefore]

theorem tailDelays_add_five (m : ℕ) (hm : 0 < m) :
    tailDelays (5 + m) = List.replicate 5 100 ++ 500 :: tailDelays m := by
  rw [tailDelays, List.range_add, List.map_append, List.flatten_append,
    List.map_map]
  have hf : tailDelayBefore ∘ (fun q => 5 + q) =
      fun q => if q % BATCH_SIZE = 0 then ([500, 100] : List ℕ) else [100] := by
    funext q
    simp [tailDelayBefore, BATCH_SIZE, Nat.add_mod_left, Nat.add_eq_zero]
  rw [hf, flatten_map_mod_eq_tailDelays m hm]
  rfl

theorem expectedDelays_add_five (m : ℕ) (hm : 0 < m) :
    expectedDelays (5 + m) = List.replicate 4 100 ++ 500 :: tailDelays m := by
  rw [expectedDelays, List.range_add, List.map_append, List.flatten_append,
    List.map_map]
  have hf : delayBefore ∘ (fun q => 5 + q) =
      fun q => if q % BATCH_SIZE = 0 then ([500, 100] : List ℕ) else [100] := by
    funext q
    simp [delayBefore, BATCH_SIZE, Nat.add_mod_left, Nat.add_eq_zero]
  rw [hf, flatten_map_mod_eq_tailDelays m hm]
  rfl

theorem hydrateGroups_tail (lookup : ℤ → Option RawNoteInfo) :
    ∀ (rem : List RawCardInfo) (i : ℕ), 0 < i →
      (hydrateGroups lookup (i + rem.length) i (chunkList rem)).2 =
        tailDelays rem.length
  | [], _, _ => rfl
  | [a], i, hi => by
    simp [chunkList, hydrateGroups,
      hydrateBatch_snd_pos lookup i [a] 0 (Or.inl hi), BATCH_SIZE,
      tailDelays, List.range_succ_eq_map, tailDelayBefore]
  | [a, b], i, hi => by
    have h5 : ¬ i + BATCH_SIZE < i + 2 := by simp [BATCH_SIZE]
    simp [chunkList, hydrateGroups,
      hydrateBatch_snd_pos lookup i [a, b] 0 (Or.inl hi), h5]
    decide
  | [a, b, c], i, hi => by
    have h5 : ¬ i + BATCH_SIZE < i + 3 := by simp [BATCH_SIZE]
    simp [chunkList, hydrateGroups,
      hydrateBatch_snd_pos lookup i [a, b, c] 0 (Or.inl hi), h5]
    decide
  | [a, b, c, d], i, hi => by
    have h5 : ¬ i + BATCH_SIZE < i + 4 := by simp [BATCH_SIZE]
    simp [chunkList, hydrateGroups,
      hydrateBatch_snd_pos lookup i [a, b, c, d] 0 (Or.inl hi), h5]
    decide
  | a :: b :: c :: d :: e :: rest, i, hi => by
    have hbatch := hydrateBatch_snd_pos lookup i [a, b, c, d, e] 0 (Or.inl hi)
    rcases Nat.eq_zero_or_pos rest.length with hr | hr
    · rw [List.eq_nil_of_length_eq_zero hr]
      have h5 : ¬ i + BATCH_SIZE < i + 5 := by simp [BATCH_SIZE]
      simp [chunkList, hydrateGroups, hbatch, h5]
      decide
    · have hbatch5 : (hydrateBatch lookup i [a, b, c, d, e] 0).2 =
          List.replicate 5 100 :=
        hydrateBatch_snd_pos lookup i [a, b, c, d, e] 0 (Or.inl hi)
      have hlen : (a :: b :: c :: d :: e :: rest).length = 5 + rest.length := by
        simp only [List.length_cons]
        omega
      have htot : i + (a :: b :: c :: d :: e :: rest).length =
          (i + BATCH_SIZE) + rest.length := by
        simp only [hlen, BATCH_SIZE]
        omega
      have ih := hydrateGroups_tail lookup rest (i + BATCH_SIZE)
        (Nat.lt_of_lt_of_le hi (Nat.le_add_right i BATCH_SIZE))
      have h5 : (i + BATCH_SIZE) < (i + BATCH_SIZE) + rest.length := by omega
      simp only [chunkList, hydrateGroups, htot]
      rw [hbatch5, if_pos h5, ih, hlen, tailDelays_add_five rest.length hr]
      simp

theorem hydrateGroups_top (lookup : ℤ → Option RawNoteInfo) :
    ∀ l : List RawCardInfo,
      (hydrateGroups lookup l.length 0 (chunkList l)).2 = expectedDelays l.length
  | [] => rfl
  | [a] => by
    simp [chunkList, hydrateGroups, hydrateBatch_snd_zero lookup [a],
      BATCH_SIZE, expectedDelays, delayBefore]
  | [a, b] => by
    have h5 : ¬ (0 + BATCH_SIZE < ([a, b] : List RawCardInfo).length) := by
      simp [BATCH_SIZE]
    simp [chunkList, hydrateGroups, hydrateBatch_snd_zero lookup [a, b], h5]
    decide
  | [a, b, c] => by
    have h5 : ¬ (0 + BATCH_SIZE < ([a, b, c] : List RawCardInfo).length) := by
      simp [BATCH_SIZE]
    simp [chunkList, hydrateGroups, hydrateBatch_snd_zero lookup [a, b, c], h5]
    decide
  | [a, b, c, d] => by
    have h5 : ¬ (0 + BATCH_SIZE < ([a, b, c, d] : List RawCardInfo).length) := by
      simp [BATCH_SIZE]
    simp [chunkList, hydrateGroups, hydrateBatch_snd_zero lookup [a, b, c, d], h5]
    decide
  | a :: b :: c :: d :: e :: rest => by
    have hbatch4 : (hydrateBatch lookup 0 [a, b, c, d, e] 0).2 =
        List.replicate 4 100 :=
      hydrateBatch_snd_zero lookup [a, b, c, d, e]
    have hlen : (a :: b :: c :: d :: e :: rest).length = 5 + rest.length := by
      simp only [List.length_cons]
      omega
    rcases Nat.eq_zero_or_pos rest.length with hr | hr
    · rw [List.eq_nil_of_length_eq_zero hr]
      have h5 : ¬ (0 + BATCH_SIZE <
          ([a, b, c, d, e] : List RawCardInfo).length) := by
        simp [BATCH_SIZE]
      simp [chunkList, hydrateGroups, hbatch4, h5]
      decide
    · have htot : (a :: b :: c :: d :: e :: rest).length =
          (0 + BATCH_SIZE) + rest.length := by
        simp [hlen, BATCH_SIZE]
      have ih := hydrateGroups_tail lookup rest (0 + BATCH_SIZE)
        (by simp [BATCH_SIZE])
      have h5 : (0 + BATCH_SIZE) < (0 + BATCH_SIZE) + rest.length := by omega
      have h55 : 0 + BATCH_SIZE + rest.length = 5 + rest.length := by
        simp [BATCH_SIZE]
      simp only [chunkList, hydrateGroups]
      rw [htot, hbatch4, if_pos h5, ih, h55,
        expectedDelays_add_five rest.length hr]
      simp

/-- C5 counterexample: with 6 cards (mock responses), the delay trace of
the batching loop is [100, 100, 100, 100, 500, 100] — the first record of
the SECOND group is preceded by a 100ms wait (the loop condition is
`i > 0 || batch.indexOf(cardInfo) > 0` and `i = 5 > 0` there) — not the
trace [100, 100, 100, 100, 500] the claim predicts, under which no 100ms
wait precedes the first record of any group. -/
theorem getCardsInfo_delay_counterexample :
    (getCardsInfo mockCardsResp mockNotesResp [1, 2, 3, 4, 5, 6]).2 ≠
      [100, 100, 100, 100, 500] ∧
    (getCardsInfo mockCardsResp mockNotesResp [1, 2, 3, 4, 5, 6]).2 =
      [100, 100, 100, 100, 500, 100] := by
  constructor
  · decide
  · decide

/-- C5 (amended): for every non-empty input, the delay trace of the
batching loop is exactly `expectedDelays` of the bulk-response length: no
wait before the very first record, a 500ms inter-group wait followed by a
100ms wait before the first record of each LATER group, and a 100ms wait
before every other record. -/
theorem getCardsInfo_delay_schedule (cardsResp : List ℤ → List RawCardInfo)
    (notesResp : List ℤ → List RawNoteInfo) (cardIds : List ℤ)
    (h : cardIds ≠ []) :
    (getCardsInfo cardsResp notesResp cardIds).2 =
      expectedDelays (cardsResp cardIds).length := by
  rw [getCardsInfo, if_neg (by simpa using h)]
  exact hydrateGroups_top _ (cardsResp cardIds)

/-- A concrete instance of the amended C5 at the six-card mock input. -/
theorem getCardsInfo_delay_schedule_witness :
    ([1, 2, 3, 4, 5, 6] : List ℤ) ≠ [] ∧
    (getCardsInfo mockCardsResp mockNotesResp [1, 2, 3, 4, 5, 6]).2 =
      expectedDelays (mockCardsResp [1, 2, 3, 4, 5, 6]).length :=
  ⟨by decide, getCardsInfo_delay_schedule _ _ [1, 2, 3, 4, 5, 6] (by decide)⟩

theorem mem_jsDedupAux [DecidableEq α] :
    ∀ (l seen : List α) (x : α), x ∈ jsDedupAux seen l ↔ (x ∈ l ∧ x ∉ seen)
  | [], seen, x => by simp [jsDedupAux]
  | a :: l, seen, x => by
    rw [jsDedupAux]
    split
    · next h =>
      rw [mem_jsDedupAux l seen x]
      constructor
      · exact fun hx => ⟨List.mem_cons_of_mem a hx.1, hx.2⟩
      · rintro ⟨hx, hs⟩
        rcases List.mem_cons.1 hx with rfl | hx2
        · exact absurd h hs
        · exact ⟨hx2, hs⟩
    · next h =>
      simp only [List.mem_cons, mem_jsDedupAux l (a :: seen) x]
      constructor
      · rintro (rfl | ⟨hx, hs⟩)
        · exact ⟨Or.inl rfl, h⟩
        · exact ⟨Or.inr hx, fun hx3 => hs (Or.inr hx3)⟩
      · rintro ⟨rfl | hx, hs⟩
        · exact Or.inl rfl
        · by_cases hxa : x = a
          · exact Or.inl hxa
          · exact Or.inr ⟨hx, by simp [List.mem_cons, hxa, hs]⟩

theorem mem_jsDedup [DecidableEq α] (l : List α) (x : α) :
    x ∈ jsDedup l ↔ x ∈ l := by
  simp [jsDedup, mem_jsDedupAux]

theorem lookupNote_isSome_of_mem (notes : List RawNoteInfo) (n : ℤ)
    (h : ∃ ni ∈ notes, ni.noteId = n) : (lookupNote notes n).isSome := by
  rw [lookupNote, List.find?_isSome]
  obtain ⟨ni, hm, hn⟩ := h
  exact ⟨ni, List.mem_reverse.2 hm, by simp [hn]⟩

theorem mock_note_found (cardIds : List ℤ) (c : RawCardInfo)
    (hc : c ∈ mockCardsResp cardIds) :
    ((noteLookupOf mockCardsResp mockNotesResp cardIds) c.note).isSome := by
  apply lookupNote_isSome_of_mem
  have h1 : c.note ∈ jsDedup ((mockCardsResp cardIds).map (fun x => x.note)) :=
    (mem_jsDedup _ _).2 (List.mem_map_of_mem _ hc)
  exact ⟨_, List.mem_map_of_mem _ h1, rfl⟩

theorem filterMap_combine_map_ease (lookup : ℤ → Option RawNoteInfo) :
    ∀ l : List RawCardInfo,
      (l.filterMap (combineCard lookup)).map (fun rec => rec.statistics.ease) =
        (l.filter (fun c => (lookup c.note).isSome)).map
          (fun c => (c.factor : ℚ) / 1000)
  | [] => rfl
  | c :: rest => by
    have ih := filterMap_combine_map_ease lookup rest
    simp only [List.filterMap_cons, List.filter_cons]
    cases h : lookup c.note <;>
      simp [combineCard, h, ih]

/-- C6: every hydrated record's `statistics.ease` is the raw `factor` of
its card divided by 1000 (the hydrated ease column equals the filtered
card column mapped through `factor / 1000`); and with the mock transport,
whose cards all carry factor 2500, every hydrated record's ease is 2.5,
one record per requested card. -/
theorem getCardsInfo_ease_scaled :
    (∀ (cardsResp : List ℤ → List RawCardInfo)
        (notesResp : List ℤ → List RawNoteInfo) (cardIds : List ℤ),
      cardIds ≠ [] →
      (getCardsInfo cardsResp notesResp cardIds).1.map
          (fun rec => rec.statistics.ease) =
        ((cardsResp cardIds).filter
            (fun c => ((noteLookupOf cardsResp notesResp cardIds) c.note).isSome)).map
          (fun c => (c.factor : ℚ) / 1000)) ∧
    (∀ cardIds : List ℤ,
      (getCardsInfo mockCardsResp mockNotesResp cardIds).1.map
          (fun rec => rec.statistics.ease) =
        List.replicate cardIds.length ((5 : ℚ) / 2)) := by
  have key : ∀ (cardsResp : List ℤ → List RawCardInfo)
      (notesResp : List ℤ → List RawNoteInfo) (cardIds : List ℤ),
      cardIds ≠ [] →
      (getCardsInfo cardsResp notesResp cardIds).1.map
          (fun rec => rec.statistics.ease) =
        ((cardsResp cardIds).filter
            (fun c => ((noteLookupOf cardsResp notesResp cardIds) c.note).isSome)).map
          (fun c => (c.factor : ℚ) / 1000) := by
    intro cardsResp notesResp cardIds h
    rw [getCardsInfo_fst cardsResp notesResp cardIds h,
      filterMap_combine_map_ease]
  refine ⟨key, ?_⟩
  intro cardIds
  rcases eq_or_ne cardIds [] with rfl | h
  · rfl
  · rw [key mockCardsResp mockNotesResp cardIds h]
    have hall : (mockCardsResp cardIds).filter
        (fun c => ((noteLookupOf mockCardsResp mockNotesResp cardIds) c.note).isSome) =
        mockCardsResp cardIds :=
      List.filter_eq_self.2 (fun c hc => mock_note_found cardIds c hc)
    rw [hall, mockCardsResp, List.map_map]
    have hconst : ((2500 : ℤ) : ℚ) / 1000 = (5 : ℚ) / 2 := by norm_num
    have hlen2 : (cardIds.map (fun cardId =>
        ({ cardId := cardId, note := cardId + 1000000, deckName := "Mock Deck",
           modelName := "Mock Model", interval := 10, factor := 2500,
           reps := 5, lapses := 2 } : RawCardInfo))).length = cardIds.length :=
      List.length_map _ _
    calc cardIds.map ((fun c => (c.factor : ℚ) / 1000) ∘ fun cardId =>
          ({ cardId := cardId, note := cardId + 1000000, deckName := "Mock Deck",
             modelName := "Mock Model", interval := 10, factor := 2500,
             reps := 5, lapses := 2 } : RawCardInfo))
        = cardIds.map (fun _ => ((2500 : ℤ) : ℚ) / 1000) := rfl
      _ = List.replicate cardIds.length ((5 : ℚ) / 2) := by
          rw [List.map_const', hconst]

/-- A concrete instance of C6: ease column of the mock one-card and
three-card hydrations. -/
theorem getCardsInfo_ease_scaled_witness :
    (([1] : List ℤ) ≠ [] ∧
      (getCardsInfo mockCardsResp mockNotesResp [1]).1.map
          (fun rec => rec.statistics.ease) =
        ((mockCardsResp [1]).filter
            (fun c => ((noteLookupOf mockCardsResp mockNotesResp [1]) c.note).isSome)).map
          (fun c => (c.factor : ℚ) / 1000)) ∧
    (getCardsInfo mockCardsResp mockNotesResp [1, 2, 3]).1.map
        (fun rec => rec.statistics.ease) =
      List.replicate ([1, 2, 3] : List ℤ).length ((5 : ℚ) / 2) :=
  ⟨⟨by decide, getCardsInfo_ease_scaled.1 mockCardsResp mockNotesResp [1]
      (by decide)⟩,
    getCardsInfo_ease_scaled.2 [1, 2, 3]⟩

/-!
The Sampler: `AnkiMcpServer.getRandomCardIds` (src/index.ts lines
279-293).  `Math.floor(Math.random() * (i + 1))` is modelled by an
injected random source `rand : ℕ → ℕ` reduced modulo `i + 1`, so the drawn
index always lies in `[0, i]` as in the source.  The JavaScript
destructuring swap `[a[i], a[j]] = [a[j], a[i]]` evaluates the right-hand
side first, so it is two `set` operations using the ORIGINAL values, which
is what `listSwap` does. -/

/-- Swap the entries at positions `a` and `b` (both read before either is
written, like the destructuring assignment of the source). -/
def listSwap (l : List ℤ) (a b : ℕ) : List ℤ :=
  (l.set a (l.getD b 0)).set b (l.getD a 0)

/-- The `for (let i = shuffled.length - 1; i > 0; i--)` loop of the
Fisher-Yates shuffle: the first argument is the current value of `i`; the
loop body swaps position `i` with the randomly drawn position
`rand i % (i + 1)`. -/
def fyLoop (rand : ℕ → ℕ) : ℕ → List ℤ → List ℤ
  | 0, l => l
  | i + 1, l => fyLoop rand i (listSwap l (i + 1) (rand (i + 1) % (i + 2)))

/-- The complete shuffle over a copy of the input, starting at
`i = length - 1`. -/
def fisherYates (rand : ℕ → ℕ) (l : List ℤ) : List ℤ :=
  fyLoop rand (l.length - 1) l

/-- `AnkiMcpServer.getRandomCardIds`: return the input unchanged when
`count >= cardIds.length`, else the first `count` elements of the
Fisher-Yates-shuffled copy. -/
def getRandomCardIds (rand : ℕ → ℕ) (cardIds : List ℤ) (count : ℕ) :
    List ℤ :=
  if count ≥ cardIds.length then cardIds
  else (fisherYates rand cardIds).take count

theorem getD_set_cons_perm (d : ℤ) :
    ∀ (t : List ℤ) (k : ℕ) (v : ℤ), k < t.length →
      List.Perm ((t.getD k d) :: t.set k v) (v :: t)
  | y :: s, 0, v, _ => by
    simpa using List.Perm.swap v y s
  | y :: s, k + 1, v, hk => by
    have hm : k < s.length := by simpa using hk
    have ih := getD_set_cons_perm d s k v hm
    have step1 : List.Perm ((s.getD k d) :: y :: s.set k v)
        (y :: (s.getD k d) :: s.set k v) := List.Perm.swap y (s.getD k d) _
    have step2 : List.Perm (y :: (s.getD k d) :: s.set k v) (y :: v :: s) :=
      List.Perm.cons y ih
    have step3 : List.Perm (y :: v :: s) (v :: y :: s) := List.Perm.swap v y s
    simpa using (step1.trans step2).trans step3

theorem listSwap_perm :
    ∀ (l : List ℤ) (a b : ℕ), a < l.length → b < l.length →
      List.Perm (listSwap l a b) l
  | [], a, _, ha, _ => absurd ha (by simp)
  | x :: t, 0, 0, _, _ => by
    simp [listSwap]
  | x :: t, 0, k + 1, _, hb => by
    have hk : k < t.length := by simpa using hb
    have := getD_set_cons_perm 0 t k x hk
    simpa [listSwap, List.getD_cons_succ] using this
  | x :: t, m + 1, 0, ha, _ => by
    have hm : m < t.length := by simpa using ha
    have := getD_set_cons_perm 0 t m x hm
    simpa [listSwap, List.getD_cons_succ] using this
  | x :: t, m + 1, k + 1, ha, hb => by
    have hm : m < t.length := by simpa using ha
    have hk : k < t.length := by simpa using hb
    have ih := listSwap_perm t m k hm hk
    simpa [listSwap, List.getD_cons_succ] using List.Perm.cons x ih

theorem fyLoop_perm (rand : ℕ → ℕ) :
    ∀ (i : ℕ) (l : List ℤ), i < l.length → List.Perm (fyLoop rand i l) l
  | 0, l, _ => List.Perm.refl l
  | i + 1, l, h => by
    have hj : rand (i + 1) % (i + 2) < l.length :=
      Nat.lt_of_lt_of_le (Nat.mod_lt _ (by omega)) h
    have hswap := listSwap_perm l (i + 1) (rand (i + 1) % (i + 2)) h hj
    have hlen : (listSwap l (i + 1) (rand (i + 1) % (i + 2))).length =
        l.length := by
      simp [listSwap]
    have ih := fyLoop_perm rand i (listSwap l (i + 1) (rand (i + 1) % (i + 2)))
      (by omega)
    exact (ih.trans hswap)

theorem fisherYates_perm (rand : ℕ → ℕ) (l : List ℤ) :
    List.Perm (fisherYates rand l) l := by
  rcases l with _ | ⟨x, t⟩
  · exact List.Perm.refl _
  · exact fyLoop_perm rand ((x :: t).length - 1) (x :: t) (by simp)

/-- C8: whenever `count >= length(ids)`, the sampler returns its input
list unchanged and in original order, performing no shuffle. -/
theorem getRandomCardIds_count_ge (rand : ℕ → ℕ) (cardIds : List ℤ)
    (count : ℕ) (h : count ≥ cardIds.length) :
    getRandomCardIds rand cardIds count = cardIds := by
  rw [getRandomCardIds, if_pos h]

/-- A concrete instance of C8: three identifiers sampled with count 5. -/
theorem getRandomCardIds_count_ge_witness :
    5 ≥ ([10, 20, 30] : List ℤ).length ∧
    getRandomCardIds (fun _ => 0) [10, 20, 30] 5 = [10, 20, 30] :=
  ⟨by decide, getRandomCardIds_count_ge (fun _ => 0) [10, 20, 30] 5 (by decide)⟩

/-- C9: for pairwise-distinct input and `0 < count < length(ids)`, the
sampler returns exactly the first `count` elements of the Fisher-Yates
shuffle of (a copy of) the input: a sequence of exactly `count` pairwise
distinct elements, each drawn from the input (the input value itself is
untouched, the shuffle operating on a copy in this pure model). -/
theorem getRandomCardIds_sample (rand : ℕ → ℕ) (cardIds : List ℤ)
    (count : ℕ) (hnd : cardIds.Nodup) (_h0 : 0 < count)
    (hlt : count < cardIds.length) :
    getRandomCardIds rand cardIds count =
        (fisherYates rand cardIds).take count ∧
    (getRandomCardIds rand cardIds count).length = count ∧
    (getRandomCardIds rand cardIds count).Nodup ∧
    ∀ x ∈ getRandomCardIds rand cardIds count, x ∈ cardIds := by
  have hne : ¬ count ≥ cardIds.length := by omega
  have hdef : getRandomCardIds rand cardIds count =
      (fisherYates rand cardIds).take count := by
    rw [getRandomCardIds, if_neg hne]
  have hperm := fisherYates_perm rand cardIds
  refine ⟨hdef, ?_, ?_, ?_⟩
  · rw [hdef, List.length_take, hperm.length_eq]
    omega
  · rw [hdef]
    exact (List.take_sublist _ _).nodup (hperm.nodup_iff.mpr hnd)
  · intro x hx
    rw [hdef] at hx
    exact hperm.mem_iff.mp (List.take_subset _ _ hx)

/-- A concrete instance of C9 with an injected deterministic random
source. -/
theorem getRandomCardIds_sample_witness :
    (([10, 20, 30] : List ℤ).Nodup ∧ 0 < 2 ∧
        2 < ([10, 20, 30] : List ℤ).length) ∧
    (getRandomCardIds (fun _ => 0) [10, 20, 30] 2 =
        (fisherYates (fun _ => 0) [10, 20, 30]).take 2 ∧
      (getRandomCardIds (fun _ => 0) [10, 20, 30] 2).length = 2 ∧
      (getRandomCardIds (fun _ => 0) [10, 20, 30] 2).Nodup ∧
      ∀ x ∈ getRandomCardIds (fun _ => 0) [10, 20, 30] 2, x ∈ [10, 20, 30]) :=
  ⟨⟨by decide, by decide, by decide⟩,
    getRandomCardIds_sample (fun _ => 0) [10, 20, 30] 2 (by decide) (by decide)
      (by decide)⟩

/-!
The Tool Dispatcher: `AnkiMcpServer.handleTagReviewedCards` (the extended
server variant, lines 643-696) and the `addTagsToCards` client method it
calls (lines 342-377).  Tool arguments arrive as untyped JSON values, so
the `card_ids` argument is modelled by a small JavaScript value type;
array elements are the numeric card identifiers the source forwards.  The
two transport requests of `addTagsToCards` (`cardsInfo`, then `addTags`)
are abstracted by per-call oracles as for `request` above, and the number
of transport requests performed is returned alongside the outcome, so
that "makes no transport call" is a statement about that count.  The
current date of `new Date()` is injected as explicit year, month and day.
-/

/-- The JavaScript values the `card_ids` argument can take: absent
(`undefined`), `null`, a boolean, a number, a string, or an array of card
identifiers. -/
inductive JsValue where
  | undefined
  | null
  | bool (b : Bool)
  | num (n : ℤ)
  | str (s : String)
  | arr (elems : List ℤ)
deriving DecidableEq

/-- JavaScript falsiness of a `JsValue` (`!cardIds` in the source):
`undefined`, `null`, `false`, `0` and `""` are falsy; every array is
truthy. -/
def jsFalsy : JsValue → Bool
  | .undefined => true
  | .null => true
  | .bool b => !b
  | .num n => n == 0
  | .str s => s == ""
  | .arr _ => false

/-- `Array.isArray(cardIds)`. -/
def jsIsArray : JsValue → Bool
  | .arr _ => true
  | _ => false

/-- `cardIds.length` of an array value (0 for non-arrays; the source only
reads it after `Array.isArray` holds). -/
def jsArrayLen : JsValue → ℕ
  | .arr l => l.length
  | _ => 0

/-- The element list of an array value. -/
def jsArrayElems : JsValue → List ℤ
  | .arr l => l
  | _ => []

/-- The injected current local date. -/
structure DateParts where
  year : ℕ
  month : ℕ
  day : ℕ

/-- `String(n).padStart(2, "0")`. -/
def pad2 (n : ℕ) : String :=
  if n < 10 then "0" ++ toString n else toString n

/-- `AnkiConnectClient.generateReviewedTag`: the tag
`<prefix>_<year><month><day>` with zero-padded month and day; the default
parameter applies only when the argument is `undefined` (`none`). -/
def generateReviewedTag (customPfx : Option String) (today : DateParts) :
    String :=
  (customPfx.getD "見直し") ++ "_" ++ toString today.year ++
    pad2 today.month ++ pad2 today.day

/-- `AnkiConnectClient.addTagsToCards`: empty input returns `false` with
no request; otherwise one `cardsInfo` request, extraction of the distinct
note identifiers, `false` when none, else the `addTags` request with the
generated tag.  Thrown request errors propagate.  The second component
counts the transport requests performed. -/
def addTagsToCards (cardsOracle : ℕ → HttpOutcome (List RawCardInfo))
    (tagsOracle : ℕ → HttpOutcome Bool) (today : DateParts)
    (cardIds : List ℤ) (customTagPfx : Option String) :
    Except ReqError Bool × ℕ :=
  if cardIds.isEmpty then (.ok false, 0)
  else
    let t1 := request cardsOracle
    match t1.result with
    | .error e => (.error e, t1.calls)
    | .ok cardsInfo =>
      let noteIds := jsDedup (cardsInfo.map (fun c => c.note))
      if noteIds.isEmpty then (.ok false, t1.calls)
      else
        let _reviewedTag := generateReviewedTag customTagPfx today
        let t2 := request tagsOracle
        match t2.result with
        | .error e => (.error e, t1.calls + t2.calls)
        | .ok b => (.ok b, t1.calls + t2.calls)

/-- The `{ content: [{ type: "text", text }], isError? }` envelope the
tool handlers return: the textual payload and the error flag (absent
`isError` is `false`). -/
structure ToolResult where
  text : String
  isError : Bool
deriving DecidableEq

/-- `AnkiMcpServer.handleTagReviewedCards`: validate `card_ids` (missing,
non-array or empty array fails with an error envelope BEFORE any
transport call), then delegate to `addTagsToCards` and wrap its outcome;
a thrown error propagates (as `Except.error`) to the dispatcher
`catch`.  The second component counts the transport requests
performed. -/
def handleTagReviewedCards (cardsOracle : ℕ → HttpOutcome (List RawCardInfo))
    (tagsOracle : ℕ → HttpOutcome Bool) (today : DateParts)
    (cardIdsArg : JsValue) (customTagPfx : Option String) :
    Except ReqError ToolResult × ℕ :=
  if jsFalsy cardIdsArg || !(jsIsArray cardIdsArg) ||
      jsArrayLen cardIdsArg == 0 then
    (.ok ⟨"Error: No card IDs provided. Please provide an array of card IDs to tag.",
      true⟩, 0)
  else
    let cardIds := jsArrayElems cardIdsArg
    match addTagsToCards cardsOracle tagsOracle today cardIds customTagPfx with
    | (.error e, n) => (.error e, n)
    | (.ok true, n) =>
      let tagDate := toString today.year ++ pad2 today.month ++ pad2 today.day
      let tagPfx := match customTagPfx with
        | some s => if s = "" then "見直し" else s
        | none => "見直し"
      (.ok ⟨"Successfully tagged " ++ toString cardIds.length ++
        " cards with " ++ "'" ++ tagPfx ++ "_" ++ tagDate ++ "'", false⟩, n)
    | (.ok false, n) =>
      (.ok ⟨"Failed to add tags to cards. Please check if the card IDs are valid.",
        true⟩, n)

/-- C7: whenever the `card_ids` argument is missing (`undefined`), not an
array, or an empty array, `handleTagReviewedCards` returns (not throws)
the error-flagged validation envelope and performs zero transport
calls. -/
theorem handleTagReviewedCards_invalid_args
    (cardsOracle : ℕ → HttpOutcome (List RawCardInfo))
    (tagsOracle : ℕ → HttpOutcome Bool) (today : DateParts)
    (customTagPfx : Option String) (v : JsValue)
    (h : v = JsValue.undefined ∨ (∀ l, v ≠ JsValue.arr l) ∨ v = JsValue.arr []) :
    handleTagReviewedCards cardsOracle tagsOracle today v customTagPfx =
      (.ok ⟨"Error: No card IDs provided. Please provide an array of card IDs to tag.",
        true⟩, 0) := by
  have hcond : (jsFalsy v || !(jsIsArray v) || jsArrayLen v == 0) = true := by
    rcases h with rfl | h | rfl
    · rfl
    · cases v with
      | arr l => exact absurd rfl (h l)
      | undefined => rfl
      | null => rfl
      | bool b => simp [jsFalsy, jsIsArray]
      | num n => simp [jsFalsy, jsIsArray]
      | str s => simp [jsFalsy, jsIsArray]
    · rfl
  rw [handleTagReviewedCards.eq_def, if_pos hcond]

/-- A concrete instance of C7: the empty `card_ids` array. -/
theorem handleTagReviewedCards_invalid_args_witness :
    (JsValue.arr [] = JsValue.undefined ∨
        (∀ l, JsValue.arr [] ≠ JsValue.arr l) ∨
        JsValue.arr [] = JsValue.arr []) ∧
    handleTagReviewedCards (fun _ => .ok [] none) (fun _ => .ok true none)
        ⟨2025, 10, 11⟩ (JsValue.arr []) none =
      (.ok ⟨"Error: No card IDs provided. Please provide an array of card IDs to tag.",
        true⟩, 0) :=
  ⟨Or.inr (Or.inr rfl),
    handleTagReviewedCards_invalid_args (fun _ => .ok [] none) (fun _ => .ok true none)
      ⟨2025, 10, 11⟩ none (JsValue.arr []) (Or.inr (Or.inr rfl))⟩
